import Mathlib

/-!
# Verification of the beancount-import source adapters

A shallow embedding of the three source adapters of this repository
(`beancount_import/source/fifththird.py`, `vanguard.py`, `wegmans.py`) together
with the parts of their runtime environment that decide the claims:

* Python `decimal` arithmetic: `round(d, 2)` quantizes with `ROUND_HALF_EVEN`,
  and division in the default context rounds the exact quotient to 28
  significant digits with `ROUND_HALF_EVEN`.  Decimal values are embedded as
  exact rationals (`ℚ`); every decimal value is a rational, and all decimal
  comparisons/additions that appear in the sources are exact at these sizes.
* `beancount.core.amount.Amount`, whose `__bool__` is `self.number != ZERO`, so
  `if entry.escrow_amount:` is true iff the amount is present (not `None`) and
  its number is non-zero.
* `beancount.core.number.D`, which converts decimal text to an exact `Decimal`
  and passes `Decimal` values through unchanged.

Python `date` values are embedded as their ordinal day number (`ℕ`);
`date + timedelta(days=1)` is `d + 1`.  Fields read with `dict.get` (absent
⇒ `None`) are embedded as `Option` values.  Where the Python code would raise
on an absent value (e.g. `None + timedelta`, `D(None)`), the embedding is made
total with a default (`Option.getD`) and the theorems that depend on that
field assume its presence.
-/

-- Batteries marks the arithmetic on `Rat` `@[irreducible]`, which blocks
-- `decide`/`rfl` evaluation of the executable definitions below on concrete
-- rationals; restore the default reducibility for them.
set_option allowUnsafeReducibility true in
attribute [semireducible] Rat.add Rat.mul Rat.sub Rat.inv

namespace BeancountImport

/-! ## Python `decimal` semantics -/

/-- Round a rational to the nearest integer, ties to the even integer: the
`ROUND_HALF_EVEN` rounding mode of Python's `decimal` module (the default
context's mode, used by `round(d, n)` and by context arithmetic). -/
def roundHalfEvenInt (x : ℚ) : ℤ :=
  let n : ℤ := ⌊x⌋
  let f : ℚ := x - n
  if f < 1/2 then n
  else if 1/2 < f then n + 1
  else if Even n then n else n + 1

/-- Python `round(d, 2)` on a `Decimal`: quantize to two decimal places with
`ROUND_HALF_EVEN`. -/
def round2 (x : ℚ) : ℚ := (roundHalfEvenInt (100 * x) : ℚ) / 100

/-- Fuel-driven base-10 logarithm on `ℕ` (structurally recursive, so that it
evaluates by kernel reduction, unlike `Nat.log`). -/
def log10fuel : ℕ → ℕ → ℕ
  | 0, _ => 0
  | fuel + 1, n => if n < 10 then 0 else log10fuel fuel (n / 10) + 1

/-- Base-10 logarithm on `ℕ`: `log10 n = Nat.log 10 n`. -/
def log10 (n : ℕ) : ℕ := log10fuel n n

/-- `⌊log₁₀ q⌋` for a positive rational, computed from the decimal digit
counts of numerator and denominator (junk value `0` for `q ≤ 0`). -/
def floorLog10 (q : ℚ) : ℤ :=
  if q ≤ 0 then 0
  else
    let z : ℤ := (log10 q.num.toNat : ℤ) - (log10 q.den : ℤ)
    if (10:ℚ) ^ z ≤ q then z else z - 1

/-- The absolute value on `ℚ`, written out so that it evaluates by kernel
reduction. -/
def ratAbs (q : ℚ) : ℚ := if q < 0 then -q else q

/-- Division of two decimals in Python's default `decimal` context: the exact
quotient rounded to 28 significant digits with `ROUND_HALF_EVEN`.  (When the
exact quotient needs at most 28 significant digits the result is exact.)
The result is the value of the resulting `Decimal`, as a rational. -/
def decimalDivide (a b : ℚ) : ℚ :=
  let q : ℚ := a / b
  if q = 0 then 0
  else
    let e : ℤ := floorLog10 (ratAbs q) - 27
    (roundHalfEvenInt (q / (10:ℚ) ^ e) : ℚ) * (10:ℚ) ^ e

/-! ## beancount core data model (the parts these adapters construct)

Metadata attached to *synthesized* postings and transactions is not modelled
(no claim refers to its contents); the metadata of *existing* journal entries,
which the dedup scans read, is modelled below as association lists. -/

/-- `beancount.core.amount.Amount`: a number with a currency code. -/
structure Amount where
  number : ℚ
  currency : String
deriving DecidableEq, Repr

/-- Python truthiness of an optional `Amount`: `None` is falsy, and
`beancount.core.amount.Amount.__bool__` returns `self.number != ZERO`. -/
def truthyAmount : Option Amount → Bool
  | none => false
  | some a => if a.number = 0 then false else true

/-- `beancount.core.position.Cost` (the label argument, always `""` in these
adapters, is elided). -/
structure Cost where
  number : ℚ
  currency : String
  date : Option ℕ
deriving DecidableEq, Repr

/-- `beancount.core.data.Posting` as constructed by these adapters
(`flag` is always `None`). -/
structure Posting where
  account : String
  units : Option Amount
  cost : Option Cost
  price : Option Amount
deriving DecidableEq, Repr

/-- `beancount.core.data.Transaction` as constructed by these adapters
(`flag` is always `FLAG_OKAY`, `tags`/`links` always empty). -/
structure Txn where
  date : ℕ
  payee : String
  narration : Option String
  postings : List Posting
deriving DecidableEq, Repr

/-- `beancount.core.data.Balance` as constructed by these adapters
(`tolerance` and `diff_amount` are always `None`). -/
structure BalanceDir where
  account : String
  date : ℕ
  amount : Amount
deriving DecidableEq, Repr

/-- A ledger directive produced by an adapter. -/
inductive Directive where
  | txn (t : Txn)
  | bal (b : BalanceDir)
deriving DecidableEq, Repr

/-- `beancount_import.ImportResult` (the `info` provenance dict is elided). -/
structure ImportResult where
  date : ℕ
  entries : List Directive
deriving DecidableEq, Repr

/-- `amt` (defined identically in `fifththird.py`, `vanguard.py` and
`wegmans.py`): `if not val: return None`, else
`Amount(round(D(str(val)), 2), "USD")`.  The argument is the exact decimal
value of the source field (`str` renders the value to decimal text and `D`
parses that text back exactly); an absent field is `none`, and the number `0`
is falsy in Python, so both return `None`. -/
def amt : Option ℚ → Option Amount
  | none => none
  | some v => if v = 0 then none else some ⟨round2 v, "USD"⟩

/-! ## Stable sorting

Python's `list.sort(key=...)` is a stable sort.  It is embedded as insertion
sort, which is also stable (proved below: the sublist at each key value is
preserved), sorted and a permutation — properties that determine the output
uniquely, so the embedding agrees with CPython's timsort. -/

section StableSort

variable {α κ : Type} [LinearOrder κ] (key : α → κ)

/-- Comparison on the sort key, as used by `lst.sort(key=...)`. -/
def keyLE (a b : α) : Prop := key a ≤ key b

instance : DecidableRel (keyLE key) := fun a b =>
  inferInstanceAs (Decidable (key a ≤ key b))

instance : IsTotal α (keyLE key) := ⟨fun a b => le_total (key a) (key b)⟩

instance : IsTrans α (keyLE key) := ⟨fun _ _ _ h h2 => le_trans h h2⟩

/-- Python `lst.sort(key=key)` (ascending, stable). -/
def pySort (l : List α) : List α := List.insertionSort (keyLE key) l

end StableSort

/-! ## `fifththird.py` -/

/-- The `FifthThirdEntry` namedtuple.  Dates are day ordinals; the four
`*_amount` fields and `amount` hold the result of `amt` on the raw JSON
value; every field is read with `data.get`, hence optional. -/
structure FifthThirdEntry where
  transaction_date : Option ℕ
  posting_date : Option ℕ
  transaction_id : Option String
  amount : Option Amount
  description : Option String
  credit_debit_type : Option String
  transaction_code : Option String
  principal_amount : Option Amount
  escrow_amount : Option Amount
  interest_amount : Option Amount
  other_amount : Option Amount
  status : Option String
  additional_info : Option String
  filename : String
  line : ℕ
deriving DecidableEq, Repr

/-- The sort key of `load_transactions`: `lambda x: x.posting_date`.
Sorting raises a `TypeError` in the source when any date is absent; the
embedding substitutes day `0` there. -/
def fifththirdSortKey (e : FifthThirdEntry) : ℕ := e.posting_date.getD 0

/-- Lines 125–126 of `fifththird.py`: `entries.reverse()` followed by
`entries.sort(key=lambda x: x.posting_date)`, applied to the decoded
records in file order. -/
def fifththird_load_order (entries : List FifthThirdEntry) :
    List FifthThirdEntry :=
  pySort fifththirdSortKey entries.reverse

/-- Does one character list lead with the other (helper for `strContains`). -/
def chListLeadsWith : List Char → List Char → Bool
  | [], _ => true
  | _ :: _, [] => false
  | a :: as, b :: bs => a == b && chListLeadsWith as bs

/-- Python `sub in s` on strings: substring containment. -/
def strContains (s sub : String) : Bool :=
  (List.range (s.toList.length + 1)).any
    (fun i => chListLeadsWith sub.toList (s.toList.drop i))

/-- `_make_import_result` of `fifththird.py`.  The metadata dict built at
the top of the function is not modelled (no claim refers to it).  An absent
`posting_date` raises in the source (`None + timedelta(days=1)`); the
embedding substitutes day `0`; likewise an absent `description` raises in
the `"5850"` branch (`'HAZ INS' in None`) and the embedding substitutes
`""`; an absent `amount` raises (`-None`) and the embedding keeps `none`. -/
def fifththird_make_import_result (e : FifthThirdEntry) : ImportResult :=
  let pd : ℕ := e.posting_date.getD 0
  if e.transaction_code = some "9999" then
    -- balance assertion: set the date one day forward, because beancount
    -- orders by date only
    let bal_date : ℕ := pd + 1
    let entries : List Directive :=
      (if truthyAmount e.principal_amount then
        [Directive.bal {
          account := "Liabilities:Mortgage:FifthThird",
          date := bal_date,
          amount :=
            { number := -1 * (e.principal_amount.getD ⟨0, "USD"⟩).number,
              currency := (e.principal_amount.getD ⟨0, "USD"⟩).currency } }]
      else []) ++
      (if truthyAmount e.escrow_amount then
        [Directive.bal {
          account := "Assets:FifthThird:Escrow",
          date := bal_date,
          amount := e.escrow_amount.getD ⟨0, "USD"⟩ }]
      else [])
    { date := bal_date, entries := entries }
  else if e.transaction_code = some "5850" then
    -- escrow withdraw, payment to third party
    let src : Posting :=
      { account := "Assets:FifthThird:Escrow",
        units := e.amount.map (fun a => ⟨-a.number, a.currency⟩),
        cost := none, price := none }
    let desc : String := e.description.getD ""
    let payee_account : String × String :=
      if strContains desc "HAZ INS" then
        ("Escrow Payment - Homeowner\x27s Insurance", "Expenses:House:Insurance")
      else if strContains desc "TAXES" then
        ("Escrow Payment - Taxes", "Expenses:House:Taxes")
      else ("Escrow Payment - " ++ desc, "Expenses:FIXME")
    let dst : Posting :=
      { account := payee_account.2, units := e.escrow_amount,
        cost := none, price := none }
    { date := pd,
      entries := [Directive.txn {
        date := pd, payee := payee_account.1,
        narration := e.description, postings := [src, dst] }] }
  else
    let src : Posting :=
      { account := "Assets:FifthThird:Payment",
        units := e.amount.map (fun a => ⟨-a.number, a.currency⟩),
        cost := none, price := none }
    let dst : List Posting :=
      (if truthyAmount e.principal_amount then
        [{ account := "Liabilities:Mortgage:FifthThird",
           units := e.principal_amount, cost := none, price := none }]
       else []) ++
      (if truthyAmount e.interest_amount then
        [{ account := "Expenses:House:Mortgage:Interest",
           units := e.interest_amount, cost := none, price := none }]
       else []) ++
      (if truthyAmount e.escrow_amount then
        [{ account := "Assets:FifthThird:Escrow",
           units := e.escrow_amount, cost := none, price := none }]
       else []) ++
      (if truthyAmount e.other_amount then
        [{ account := "Expenses:House:Mortgage:Other",
           units := e.other_amount, cost := none, price := none }]
       else [])
    { date := pd,
      entries := [Directive.txn {
        date := pd, payee := "Fifth Third Mortgage",
        narration := e.description, postings := src :: dst }] }

/-- An entry of the existing journal, as the dedup scans read it: a
transaction carries a metadata map and the metadata maps of its postings
(association lists with values of type `μ`, absent keys simply missing);
every other directive kind is skipped by the scans
(`isinstance(entry, Transaction)`). -/
inductive JournalEntry (μ : Type) where
  | txn (meta : List (String × μ)) (postings : List (List (String × μ)))
  | other
deriving DecidableEq, Repr

/-- Collect the truthy values of metadata key `key` over every transaction's
metadata and every posting's metadata (`if tid: ret.add(tid)`): the common
body of the three `_get_existing_transaction_ids` functions.  `falsy` is
Python falsiness on the value type (`""` for strings, `0` for decimals).
A Python `set` is embedded as a list used only through membership. -/
def getExistingIds {μ : Type} (falsy : μ → Bool) (key : String)
    (all_entries : List (JournalEntry μ)) : List μ :=
  all_entries.foldl (fun acc entry =>
    match entry with
    | .other => acc
    | .txn meta postings =>
      let acc1 := match meta.lookup key with
        | some tid => if falsy tid then acc else acc ++ [tid]
        | none => acc
      postings.foldl (fun acc2 pmeta =>
        match pmeta.lookup key with
        | some tid => if falsy tid then acc2 else acc2 ++ [tid]
        | none => acc2) acc1) []

/-- `_get_existing_transaction_ids` of `fifththird.py`: scan for the
`fifththird_transaction_id` metadata key (string-valued). -/
def fifththird_get_existing_transaction_ids
    (all_entries : List (JournalEntry String)) : List String :=
  getExistingIds (fun s => s == "") "fifththird_transaction_id" all_entries

/-- `entry.transaction_id in existing_tids`: an absent id is `None`, which
is not an element of a set of strings. -/
def optIdInSet (tid : Option String) (s : List String) : Bool :=
  match tid with
  | none => false
  | some t => s.contains t

/-- `FifthThirdSource.prepare`: skip every loaded entry whose
`transaction_id` is already among the existing ids; stage an import result
for each of the others, in order (`results.add_pending_entry` collects into
a list; the trailing `add_account` calls do not affect pending entries). -/
def fifththird_prepare (entries : List FifthThirdEntry)
    (all_entries : List (JournalEntry String)) : List ImportResult :=
  let existing := fifththird_get_existing_transaction_ids all_entries
  entries.foldl (fun acc e =>
    if optIdInSet e.transaction_id existing then acc
    else acc ++ [fifththird_make_import_result e]) []

/-! ## `vanguard.py` -/

/-- The fields of the `VanguardEntry` namedtuple that the modelled operations
read.  (The namedtuple has 45 data fields; the ones omitted here feed only
the unmodelled metadata dict.)  Numeric fields hold the exact decimal parsed
from JSON (`parse_float=decimal.Decimal, parse_int=decimal.Decimal`), dates
are day ordinals, and every field is optional (`load_transactions` fills
missing fields with `None`). -/
structure VanguardEntry where
  accountId : Option String
  sequenceNumber : Option ℚ
  ticker : Option String
  investmentName : Option String
  transactionType : Option String
  transactionCode : Option String
  price : Option ℚ
  netAmount : Option ℚ
  principleAmount : Option ℚ
  quantity : Option ℚ
  recordDate : Option ℕ
  tradeDate : Option ℕ
  filename : String
  line : ℕ
deriving DecidableEq, Repr

/-- Python truthiness of an optional decimal (`if entry.price:`): absent or
zero is falsy. -/
def truthyQ : Option ℚ → Bool
  | none => false
  | some v => if v = 0 then false else true

/-- The sort key of vanguard `load_transactions`:
`lambda x: x.sequenceNumber`.  Sorting raises a `TypeError` in the source
when the field is absent; the embedding substitutes `0` there. -/
def vanguardSortKey (e : VanguardEntry) : ℚ := e.sequenceNumber.getD 0

/-- Lines 155–156 of `vanguard.py`: `entries.reverse()` followed by
`entries.sort(key=lambda x: x.sequenceNumber)`. -/
def vanguard_load_order (entries : List VanguardEntry) : List VanguardEntry :=
  pySort vanguardSortKey entries.reverse

/-- Python `'%s' % v` on an optional string: `None` renders as `"None"`. -/
def pyFmt : Option String → String
  | none => "None"
  | some s => s

/-- `entry.transactionCode in [...]`: an absent code is `None`, which equals
no string. -/
def tcIn (e : VanguardEntry) (codes : List String) : Bool :=
  match e.transactionCode with
  | none => false
  | some t => codes.contains t

/-- The working variables of `_make_import_result` of `vanguard.py` that the
`transactionCode` dispatch chain mutates. -/
structure VanguardLegs where
  src_account : String
  src_units : Amount
  dst_account : String
  dst_units : Amount
  dst_price : Option Amount
  dst_cost : Option Cost
  narration : String
deriving DecidableEq, Repr

/-- The initial working variables of `_make_import_result` of `vanguard.py`
(lines 180–198), before the `transactionCode` dispatch: source leg
`-principleAmount` USD, destination leg `quantity` of the ticker, and the
initial cost basis: the stated `price` when truthy, else
`netAmount / quantity` (decimal context division) when `netAmount != 0` and
`quantity > 0`, else no cost. -/
def vanguard_initial_legs (e : VanguardEntry) (vang_account : String) :
    VanguardLegs :=
  { src_account := "Expenses:FIXME"
    src_units := ⟨-1 * e.principleAmount.getD 0, "USD"⟩
    dst_account := vang_account
    dst_units := ⟨e.quantity.getD 0, pyFmt e.ticker⟩
    dst_price := none
    dst_cost :=
      if truthyQ e.price then
        some ⟨e.price.getD 0, "USD", e.tradeDate⟩
      else if e.netAmount ≠ some 0 ∧ 0 < e.quantity.getD 0 then
        some ⟨decimalDivide (e.netAmount.getD 0) (e.quantity.getD 0), "USD",
              e.tradeDate⟩
      else none
    narration := pyFmt e.transactionType ++ " - " ++ pyFmt e.ticker
      ++ " - " ++ pyFmt e.investmentName }

/-- The `transactionCode` dispatch chain of `_make_import_result` of
`vanguard.py` (lines 200–277), mutating the working variables. -/
def vanguard_legs (e : VanguardEntry) (cash_account vang_account : String)
    (account_mappings : String → String) : VanguardLegs :=
  if tcIn e ["5005", "7066", "7001", "BUY"] then  -- Buy
    { vanguard_initial_legs e vang_account with src_account := cash_account }
  else if tcIn e ["9558", "9555"] then  -- Transfer
    { vanguard_initial_legs e vang_account with src_account := cash_account }
  else if tcIn e ["DTRF"] then  -- Direct transfer
    if e.investmentName = some "CASH" then
      { vanguard_initial_legs e vang_account with
        src_account := "Expenses:FIXME"
        src_units := ⟨e.principleAmount.getD 0, "USD"⟩
        dst_units := ⟨-1 * e.principleAmount.getD 0, "USD"⟩
        dst_account := cash_account }
    else
      { vanguard_initial_legs e vang_account with
        src_account := "Expenses:FIXME"
        src_units := ⟨-(e.quantity.getD 0), pyFmt e.ticker⟩
        dst_units := ⟨e.quantity.getD 0, pyFmt e.ticker⟩ }
  else if tcIn e ["WOFF"] then  -- writeoff
    { vanguard_initial_legs e vang_account with
      src_units := ⟨e.principleAmount.getD 0, "USD"⟩
      dst_units := ⟨-1 * e.principleAmount.getD 0, "USD"⟩
      dst_account := cash_account }
  else if tcIn e ["8037"] then  -- Capital gain (ST) direct reinvestment
    { vanguard_initial_legs e vang_account with
      src_account := account_mappings "Income:GainST" }
  else if tcIn e ["8035"] then  -- Capital gain (LT) direct reinvestment
    { vanguard_initial_legs e vang_account with
      src_account := account_mappings "Income:GainLT" }
  else if tcIn e ["5010", "8015", "8112"] then  -- Dividend, reinvested
    { vanguard_initial_legs e vang_account with
      src_account := account_mappings "Income:Dividend" }
  else if tcIn e ["ROLL"] then  -- rollover check
    { vanguard_initial_legs e vang_account with
      src_account := "Assets:Retirement:OldAccount"
      src_units := ⟨e.principleAmount.getD 0, "USD"⟩
      dst_account := cash_account
      dst_units := ⟨-1 * e.principleAmount.getD 0, "USD"⟩ }
  else if tcIn e ["SCAP", "LCAP"] then  -- Capital gain to cash
    { vanguard_initial_legs e vang_account with
      dst_account := account_mappings "Income:GainST"
      dst_units := ⟨e.principleAmount.getD 0, "USD"⟩
      dst_cost := none
      src_account := "Expenses:FIXME"
      narration :=
        if e.transactionCode = some "LCAP" then "Gain (LT)" else "Gain (ST)" }
  else if tcIn e ["RLCP", "RSCP"] then  -- Capital gain reinvested from cash
    { vanguard_initial_legs e vang_account with
      src_account := "Expenses:FIXME"
      dst_account := vang_account
      narration :=
        if e.transactionCode = some "RLCP" then "Gain (LT)" else "Gain (ST)" }
  else if tcIn e ["DIV"] then  -- Dividend to cash
    { vanguard_initial_legs e vang_account with
      dst_account := account_mappings "Income:Dividend"
      dst_units := ⟨e.principleAmount.getD 0, "USD"⟩
      dst_cost := none
      src_account := "Expenses:FIXME"
      narration := "Dividend" }
  else if tcIn e ["RDIV", "RDDV"] then  -- dividend re-investment
    { vanguard_initial_legs e vang_account with
      src_account := "Expenses:FIXME"
      dst_account := vang_account
      narration := "Dividend" }
  else if tcIn e ["CNVO", "CNVI"] then  -- conversion outgoing / incoming
    if e.transactionCode = some "CNVO" then
      { vanguard_initial_legs e vang_account with
        src_account := "Expenses:FIXME"
        dst_account := vang_account
        src_units := ⟨-1 * e.principleAmount.getD 0, "USD"⟩
        dst_units := ⟨e.quantity.getD 0, pyFmt e.ticker⟩
        dst_price := some ⟨decimalDivide (e.netAmount.getD 0)
          (e.quantity.getD 0), "USD"⟩
        dst_cost := none }
    else
      { vanguard_initial_legs e vang_account with
        src_account := "Expenses:FIXME"
        dst_account := vang_account
        src_units := ⟨-1 * e.principleAmount.getD 0, "USD"⟩
        dst_units := ⟨e.quantity.getD 0, pyFmt e.ticker⟩
        dst_cost := some ⟨decimalDivide (e.netAmount.getD 0)
          (e.quantity.getD 0), "USD", e.tradeDate⟩
        dst_price := none }
  else if tcIn e ["SELE"] then  -- sell for exchange
    { vanguard_initial_legs e vang_account with
      src_account := "Expenses:FIXME"
      dst_account := vang_account
      dst_price := some ⟨e.price.getD 0, "USD"⟩
      dst_cost := none }
  else vanguard_initial_legs e vang_account

/-- `_make_import_result` of `vanguard.py`.  Returns `none` for the
`RuntimeError` raised when no journal account carries the entry's
`vanguard_account_id`.  The metadata dict is not modelled.  A `D(None)` or
`None > 0` in the source raises; the embedding substitutes `0` for absent
numeric fields, `"None"` for an absent ticker rendered with `%s`, and the
theorems that depend on such a field assume it present. -/
def vanguard_make_import_result (e : VanguardEntry)
    (vanguard_accounts : String → Option String)
    (account_mappings : String → String) : Option ImportResult :=
  match e.accountId.bind vanguard_accounts with
  | none => none
  | some base =>
    let cash_account : String := base ++ ":" ++ "Cash"
    let vang_account : String := base ++ ":" ++ pyFmt e.ticker
    let legs : VanguardLegs :=
      vanguard_legs e cash_account vang_account account_mappings
    let src_posting : Posting :=
      { account := legs.src_account, units := some legs.src_units,
        cost := none, price := none }
    let dst_posting : Posting :=
      { account := legs.dst_account, units := some legs.dst_units,
        cost := legs.dst_cost, price := legs.dst_price }
    some { date := e.recordDate.getD 0,
           entries := [Directive.txn {
             date := e.recordDate.getD 0, payee := "Vanguard",
             narration := some legs.narration,
             postings := [src_posting, dst_posting] }] }

/-- `_get_existing_transaction_ids` of `vanguard.py`: scan for the
`vanguard_sequenceNumber` metadata key (decimal-valued; `0` is falsy). -/
def vanguard_get_existing_transaction_ids
    (all_entries : List (JournalEntry ℚ)) : List ℚ :=
  getExistingIds (fun v => v == 0) "vanguard_sequenceNumber" all_entries

/-- `entry.sequenceNumber in existing_tids`: an absent number is `None`,
which is not an element of a set of decimals. -/
def optQInSet (sq : Option ℚ) (s : List ℚ) : Bool :=
  match sq with
  | none => false
  | some v => s.contains v

/-- The `prepare` loop of `VanguardSource`: skip entries whose
`sequenceNumber` is among the existing ids; stage an import result for each
other entry.  A `RuntimeError` raised by `_make_import_result` aborts the
loop; the results staged before the failure remain staged (`results` is
mutated incrementally). -/
def vanguard_prepare_loop (vanguard_accounts : String → Option String)
    (account_mappings : String → String) (existing : List ℚ) :
    List VanguardEntry → List ImportResult
  | [] => []
  | e :: rest =>
    if optQInSet e.sequenceNumber existing then
      vanguard_prepare_loop vanguard_accounts account_mappings existing rest
    else
      match vanguard_make_import_result e vanguard_accounts account_mappings with
      | none => []
      | some r =>
        r :: vanguard_prepare_loop vanguard_accounts account_mappings existing rest

/-- `VanguardSource.prepare`. -/
def vanguard_prepare (entries : List VanguardEntry)
    (all_entries : List (JournalEntry ℚ))
    (vanguard_accounts : String → Option String)
    (account_mappings : String → String) : List ImportResult :=
  vanguard_prepare_loop vanguard_accounts account_mappings
    (vanguard_get_existing_transaction_ids all_entries) entries

/-! ## `wegmans.py` -/

/-- The data of one counted line item (either the item itself or its
`child_order_item` replacement): the fields `_make_import_result` reads.
`categories` holds the category names of `item['store_product']['categories']`,
`name` the product name, `sub_total` the exact decimal `item['sub_total']`. -/
structure WItemData where
  name : String
  categories : List String
  sub_total : ℚ
deriving DecidableEq, Repr

/-- One element of `order['items']` (or `order['order_items']`): an optional
`status`, the item's own data, and an optional `child_order_item`
replacement.  A `child_order_item` key that is missing and one that is
present with value `null` behave identically in the source
(`if 'child_order_item' in item and item['child_order_item'] is not None`),
so both are `none`. -/
structure WItem where
  status : Option String
  child_order_item : Option WItemData
  data : WItemData
deriving DecidableEq, Repr

/-- Lines 131–137 of `wegmans.py`: an item whose status is `"removed"` is
replaced by its `child_order_item` when one is present and skipped otherwise
(`continue`); every other item counts as itself. -/
def resolveItem (it : WItem) : Option WItemData :=
  if it.status = some "removed" then it.child_order_item else some it.data

/-- The items actually counted by the aggregation loop, in order. -/
def wegmansCountedItems (items : List WItem) : List WItemData :=
  items.filterMap resolveItem

/-- The running `item_total` accumulated over the counted items. -/
def wegmansItemTotal (items : List WItem) : ℚ :=
  ((wegmansCountedItems items).map (fun d => d.sub_total)).sum

/-- `", ".join([c['name'] for c in cats])`. -/
def joinCats (cats : List String) : String :=
  String.intercalate ", " cats

/-- Lines 140–144: the grouping key of a counted item.  A product whose name
contains `"Kombucha"` is special-cased to the literal key `"Kombucha"`;
otherwise the key is the MD5 hex digest of the comma-joined first two
category names.  The digest is embedded as the joined string itself behind a
tag: this preserves equality of keys for equal label sets and distinctness
from `"Kombucha"` (a 32-character hex digest never equals `"Kombucha"`);
md5 collisions between distinct label strings are outside the model. -/
def cathash (d : WItemData) : String :=
  if strContains d.name "Kombucha" then "Kombucha"
  else "md5:" ++ joinCats (d.categories.take 2)

/-- The keys of `grouped` (a `defaultdict`) in dict insertion order: the
first-occurrence order of the distinct grouping keys of the counted items. -/
def groupKeys (resolved : List WItemData) : List String :=
  resolved.foldl (fun acc d =>
    if acc.contains (cathash d) then acc else acc ++ [cathash d]) []

/-- A Wegmans order/purchase document: the fields the modelled code reads.
`total` is `final_totals['total']` (a `KeyError` if missing — required);
`tax_total` is `final_totals.get('tax_total', D(0))`; `timestamp` is the
date of the ISO timestamp as a day ordinal. -/
structure WegmansOrder where
  id : String
  status : Option String
  timestamp : ℕ
  total : ℚ
  tax_total : Option ℚ
  items : List WItem
deriving DecidableEq, Repr

/-- `_make_import_result` of `wegmans.py`: one transaction containing the
charge posting, the tax posting, a discrepancy posting when
`charge_total != item_total + tax_total`, and one posting per category
bucket in key insertion order.  Metadata dicts are not modelled. -/
def wegmans_make_import_result (o : WegmansOrder) : ImportResult :=
  let resolved := wegmansCountedItems o.items
  let item_total : ℚ := wegmansItemTotal o.items
  let charge_total : ℚ := o.total
  let tax_total : ℚ := o.tax_total.getD 0
  let charge_posting : Posting :=
    { account := "Expenses:FIXME:Charge",
      units := some ⟨-1 * charge_total, "USD"⟩, cost := none, price := none }
  let tax_posting : Posting :=
    { account := "Expenses:FIXME:Tax",
      units := some ⟨tax_total, "USD"⟩, cost := none, price := none }
  let discrepancy : List Posting :=
    if charge_total ≠ item_total + tax_total then
      [{ account := "Expenses:Food:Groceries",
         units := some ⟨charge_total - (item_total + tax_total), "USD"⟩,
         cost := none, price := none }]
    else []
  let buckets : List Posting :=
    (groupKeys resolved).map (fun k =>
      { account := "Expenses:FIXME:" ++ k,
        units := some
          ⟨((resolved.filter (fun d => cathash d == k)).map
              (fun d => d.sub_total)).sum, "USD"⟩,
        cost := none, price := none })
  { date := o.timestamp,
    entries := [Directive.txn {
      date := o.timestamp, payee := "Wegmans", narration := none,
      postings := [charge_posting, tax_posting] ++ discrepancy ++ buckets }] }

/-- `_get_existing_transaction_ids` of `wegmans.py`: scan for the
`wegmans_order_id` metadata key (string-valued). -/
def wegmans_get_existing_transaction_ids
    (all_entries : List (JournalEntry String)) : List String :=
  getExistingIds (fun s => s == "") "wegmans_order_id" all_entries

/-- `WegmansSource.prepare`: skip orders whose top-level `status` is
`"cancelled"`; then skip orders whose `id` is among the existing ids; stage
an import result for each remaining order, in order. -/
def wegmans_prepare (entries : List WegmansOrder)
    (all_entries : List (JournalEntry String)) : List ImportResult :=
  let existing := wegmans_get_existing_transaction_ids all_entries
  entries.foldl (fun acc e =>
    if e.status = some "cancelled" then acc
    else if existing.contains e.id then acc
    else acc ++ [wegmans_make_import_result e]) []

/-- All postings of the transactions of an import result (read-only helper
for stating the posting-level claims). -/
def txnPostings (r : ImportResult) : List Posting :=
  r.entries.foldr (fun dir acc =>
    match dir with
    | Directive.txn t => t.postings ++ acc
    | Directive.bal _ => acc) []

/-! ## Concrete sample data (used to instantiate the theorems) -/

/-- A fifththird statement/snapshot record (`transactionCode "9999"`), as in
the module docstring, posted on day `737299`, with a principal balance of
`123456.78` and an escrow balance of `910.11`. -/
def sampleStatementEntry : FifthThirdEntry :=
  { transaction_date := some 737273
    posting_date := some 737299
    transaction_id := some "UUID2"
    amount := amt none
    description := some "BALANCE AFTER"
    credit_debit_type := some "B"
    transaction_code := some "9999"
    principal_amount := amt (some (12345678/100))
    escrow_amount := amt (some (91011/100))
    interest_amount := amt none
    other_amount := amt none
    status := some "POSTED"
    additional_info := none
    filename := "transactions.jsonl"
    line := 2 }

/-- A regular fifththird mortgage-payment record.  Its raw `otherAmount` is
`0.001`, which `amt` rounds to the *present but zero* amount `0.00`; its raw
`interestAmount` is `0`, which `amt` maps to `None` (absent). -/
def samplePaymentEntry : FifthThirdEntry :=
  { transaction_date := some 737273
    posting_date := some 737294
    transaction_id := some "UUID1"
    amount := amt (some (150000/100))
    description := some "PAYMENT - THANK YOU"
    credit_debit_type := some "C"
    transaction_code := some "0001"
    principal_amount := amt (some (100000/100))
    escrow_amount := amt (some (49999/100))
    interest_amount := amt (some 0)
    other_amount := amt (some (1/1000))
    status := some "POSTED"
    additional_info := none
    filename := "transactions.jsonl"
    line := 1 }

/-- A counted Wegmans item: `50.00` of produce. -/
def sampleItemA : WItem :=
  { status := none, child_order_item := none,
    data := { name := "Bananas", categories := ["Produce", "Fruit", "Tropical"],
              sub_total := 5000/100 } }

/-- A counted Wegmans item: `42.00` of meat. -/
def sampleItemB : WItem :=
  { status := none, child_order_item := none,
    data := { name := "Chicken Breast", categories := ["Meat"],
              sub_total := 4200/100 } }

/-- A Wegmans item with status `"removed"` and no replacement. -/
def removedItemNoChild : WItem :=
  { status := some "removed", child_order_item := none,
    data := { name := "Oat Milk", categories := ["Dairy"],
              sub_total := 399/100 } }

/-- A Wegmans item with status `"removed"` and a `child_order_item`
replacement of `4.50`. -/
def removedItemWithChild : WItem :=
  { status := some "removed",
    child_order_item := some { name := "Whole Milk", categories := ["Dairy"],
                               sub_total := 450/100 },
    data := { name := "Oat Milk", categories := ["Dairy"],
              sub_total := 399/100 } }

/-- The spec's balanced example order: `charge_total = 100.00`, item
sub-totals `92.00`, `tax_total = 8.00`. -/
def sampleOrder100 : WegmansOrder :=
  { id := "ORDER-100", status := none, timestamp := 737400,
    total := 10000/100, tax_total := some (800/100),
    items := [sampleItemA, sampleItemB] }

/-- The spec's unbalanced example order: `charge_total = 101.00` over the
same items and tax. -/
def sampleOrder101 : WegmansOrder :=
  { id := "ORDER-101", status := none, timestamp := 737400,
    total := 10100/100, tax_total := some (800/100),
    items := [sampleItemA, sampleItemB] }

/-- A cancelled Wegmans order (top-level `status = "cancelled"`). -/
def cancelledOrder : WegmansOrder :=
  { id := "ORDER-CXL", status := some "cancelled", timestamp := 737401,
    total := 555/100, tax_total := some (5/100),
    items := [sampleItemA] }

/-- An order containing a replaced item, a removed-without-replacement item
and two ordinary items. -/
def sampleOrderRemoved : WegmansOrder :=
  { id := "ORDER-RM", status := none, timestamp := 737402,
    total := 9650/100, tax_total := some (200/100),
    items := [sampleItemA, removedItemWithChild, removedItemNoChild,
              sampleItemB] }

/-- Two distinct fifththird records sharing a posting date, in file order
`A` then `B`. -/
def tieEntryA : FifthThirdEntry :=
  { samplePaymentEntry with transaction_id := some "TIE-A" }

/-- See `tieEntryA`. -/
def tieEntryB : FifthThirdEntry :=
  { samplePaymentEntry with transaction_id := some "TIE-B" }

/-- A Vanguard buy with no stated price, `netAmount = 10`, `quantity = 3`:
the cost basis is ratio-derived. -/
def sampleVanguardBuy : VanguardEntry :=
  { accountId := some "ACCT-1", sequenceNumber := some 1001,
    ticker := some "VTSAX", investmentName := some "Total Stock Market",
    transactionType := some "Buy", transactionCode := some "BUY",
    price := none, netAmount := some 10, principleAmount := some 10,
    quantity := some 3, recordDate := some 737500, tradeDate := some 737500,
    filename := "vanguard.jsonl", line := 1 }

/-- A Vanguard buy whose `price` field is present but `0` (falsy), with
`netAmount = 6`, `quantity = 2`. -/
def sampleVanguardZeroPrice : VanguardEntry :=
  { sampleVanguardBuy with
    sequenceNumber := some 1002, price := some 0,
    netAmount := some 6, quantity := some 2 }

/-- A journal account map holding the one account id `"ACCT-1"`. -/
def sampleVanguardAccounts : String → Option String := fun aid =>
  if aid = "ACCT-1" then some "Assets:Vanguard:Brokerage" else none

/-- A total account-mappings configuration. -/
def sampleVanguardMappings : String → String := fun key =>
  "Income:Vanguard:" ++ key

/-! ## Lemmas -/

theorem log10fuel_eq (fuel n : ℕ) (h : n ≤ fuel) :
    log10fuel fuel n = Nat.log 10 n := by
  induction fuel generalizing n with
  | zero =>
    have hn : n = 0 := Nat.le_zero.mp h
    subst hn
    simp [log10fuel, Nat.log_zero_right]
  | succ fuel ih =>
    simp only [log10fuel]
    by_cases hn : n < 10
    · rw [if_pos hn, Nat.log_of_lt hn]
    · rw [if_neg hn, ih (n / 10) ?_,
        Nat.log_of_one_lt_of_le (by norm_num) (not_lt.mp hn)]
      have h1 : 0 < n := by omega
      have := Nat.div_lt_self h1 (by norm_num : 1 < 10)
      omega

theorem log10_eq (n : ℕ) : log10 n = Nat.log 10 n :=
  log10fuel_eq n n le_rfl

theorem ratAbs_eq_abs (q : ℚ) : ratAbs q = |q| := by
  unfold ratAbs
  by_cases h : q < 0
  · rw [if_pos h, abs_of_neg h]
  · rw [if_neg h, abs_of_nonneg (not_lt.mp h)]

/-- `roundHalfEvenInt` returns a nearest integer, and returns an even integer
on ties. -/
theorem roundHalfEvenInt_spec (x : ℚ) :
    |x - (roundHalfEvenInt x : ℚ)| ≤ 1/2 ∧
      (|x - (roundHalfEvenInt x : ℚ)| = 1/2 → Even (roundHalfEvenInt x)) := by
  unfold roundHalfEvenInt
  have h0 : (0:ℚ) ≤ x - (⌊x⌋ : ℚ) := by
    have := Int.floor_le x; linarith
  have h1 : x - (⌊x⌋ : ℚ) < 1 := by
    have := Int.lt_floor_add_one x; linarith
  by_cases hlt : x - (⌊x⌋ : ℚ) < 1/2
  · simp only [if_pos hlt]
    constructor
    · rw [abs_of_nonneg h0]; linarith
    · intro habs; rw [abs_of_nonneg h0] at habs; linarith
  · by_cases hgt : (1:ℚ)/2 < x - (⌊x⌋ : ℚ)
    · simp only [if_neg hlt, if_pos hgt]
      have habs : |x - ((⌊x⌋ + 1 : ℤ) : ℚ)| = ((⌊x⌋ : ℚ) + 1) - x := by
        rw [abs_of_nonpos] <;> push_cast <;> linarith
      constructor
      · rw [habs]; linarith
      · intro h2; rw [habs] at h2; linarith
    · have heq : x - (⌊x⌋ : ℚ) = 1/2 := le_antisymm (not_lt.mp hgt) (not_lt.mp hlt)
      simp only [if_neg hlt, if_neg hgt]
      by_cases hev : Even (⌊x⌋)
      · simp only [if_pos hev]
        constructor
        · rw [abs_of_nonneg h0]; linarith
        · intro _; exact hev
      · simp only [if_neg hev]
        have habs : |x - ((⌊x⌋ + 1 : ℤ) : ℚ)| = 1/2 := by
          rw [abs_of_nonpos] <;> push_cast <;> linarith
        constructor
        · rw [habs]
        · intro _
          exact (Int.even_add_one).mpr (by simpa using hev)

/-- `round2` returns the nearest multiple of `1/100`, ties to the multiple
with even scaled mantissa. -/
theorem round2_spec (x : ℚ) :
    ∃ m : ℤ, round2 x = (m : ℚ) / 100 ∧ |x - (m : ℚ)/100| ≤ 1/200 ∧
      (|x - (m : ℚ)/100| = 1/200 → Even m) := by
  refine ⟨roundHalfEvenInt (100 * x), rfl, ?_, ?_⟩
  · have h := (roundHalfEvenInt_spec (100 * x)).1
    rw [abs_le] at h ⊢
    constructor <;> [nlinarith [h.1, h.2]; nlinarith [h.1, h.2]]
  · intro habs
    apply (roundHalfEvenInt_spec (100 * x)).2
    have h2 : (100:ℚ) * x - (roundHalfEvenInt (100 * x) : ℚ)
        = 100 * (x - (roundHalfEvenInt (100 * x) : ℚ)/100) := by ring
    rw [h2, abs_mul, abs_of_nonneg (by norm_num : (0:ℚ) ≤ 100), habs]
    norm_num

/-- `floorLog10` is correct on positive rationals:
`10 ^ floorLog10 q ≤ q < 10 ^ (floorLog10 q + 1)`. -/
theorem floorLog10_spec (q : ℚ) (hq : 0 < q) :
    (10:ℚ) ^ floorLog10 q ≤ q ∧ q < (10:ℚ) ^ (floorLog10 q + 1) := by
  have hnum : 0 < q.num := Rat.num_pos.mpr hq
  have hden : (0:ℚ) < (q.den : ℚ) := by exact_mod_cast q.pos
  have hanat : 0 < q.num.toNat := by omega
  set la := Nat.log 10 q.num.toNat with hla
  set lb := Nat.log 10 q.den with hlb
  set z : ℤ := (la : ℤ) - (lb : ℤ) with hz
  have hnq : ((q.num.toNat : ℚ)) = (q.num : ℚ) := by
    have := Int.toNat_of_nonneg hnum.le
    exact_mod_cast congrArg (fun n : ℤ => (n : ℚ)) this
  have hqab : q = (q.num.toNat : ℚ) / (q.den : ℚ) := by
    rw [hnq]; exact (Rat.num_div_den q).symm
  have hA1 : (10:ℚ) ^ la ≤ (q.num.toNat : ℚ) := by
    exact_mod_cast Nat.pow_log_le_self 10 hanat.ne'
  have hA2 : (q.num.toNat : ℚ) < (10:ℚ) ^ (la + 1) := by
    exact_mod_cast Nat.lt_pow_succ_log_self (by norm_num) q.num.toNat
  have hB1 : (10:ℚ) ^ lb ≤ (q.den : ℚ) := by
    exact_mod_cast Nat.pow_log_le_self 10 q.den_nz
  have hB2 : (q.den : ℚ) < (10:ℚ) ^ (lb + 1) := by
    exact_mod_cast Nat.lt_pow_succ_log_self (by norm_num) q.den
  have h10 : (10:ℚ) ≠ 0 := by norm_num
  have hpowpos : ∀ k : ℕ, (0:ℚ) < (10:ℚ) ^ k := fun k => by positivity
  have hlow : (10:ℚ) ^ (z - 1) < q := by
    have e1 : (10:ℚ) ^ (z - 1) = (10:ℚ) ^ la / (10:ℚ) ^ (lb + 1) := by
      have : z - 1 = (la : ℤ) - ((lb : ℤ) + 1) := by ring
      rw [this, zpow_sub₀ h10]
      congr 1
      · exact zpow_natCast 10 la
      · rw [show (lb : ℤ) + 1 = ((lb + 1 : ℕ) : ℤ) by push_cast; ring]
        exact zpow_natCast 10 (lb + 1)
    rw [e1, hqab, div_lt_div_iff₀ (hpowpos (lb + 1)) hden]
    nlinarith [hA1, hB2, hpowpos la, hpowpos (lb + 1), hanat]
  have hhigh : q < (10:ℚ) ^ (z + 1) := by
    have e1 : (10:ℚ) ^ (z + 1) = (10:ℚ) ^ (la + 1) / (10:ℚ) ^ lb := by
      have : z + 1 = ((la : ℤ) + 1) - (lb : ℤ) := by ring
      rw [this, zpow_sub₀ h10]
      congr 1
      · rw [show (la : ℤ) + 1 = ((la + 1 : ℕ) : ℤ) by push_cast; ring]
        exact zpow_natCast 10 (la + 1)
      · exact zpow_natCast 10 lb
    rw [e1, hqab, div_lt_div_iff₀ hden (hpowpos lb)]
    nlinarith [hA2, hB1, hpowpos (la + 1), hpowpos lb,
      (by exact_mod_cast hanat : (0:ℚ) < (q.num.toNat : ℚ))]
  have hdef : floorLog10 q = if (10:ℚ) ^ z ≤ q then z else z - 1 := by
    unfold floorLog10
    simp only [log10_eq]
    rw [if_neg (not_le.mpr hq)]
  rw [hdef]
  by_cases hcase : (10:ℚ) ^ z ≤ q
  · rw [if_pos hcase]; exact ⟨hcase, hhigh⟩
  · rw [if_neg hcase]
    refine ⟨hlow.le, ?_⟩
    rw [show z - 1 + 1 = z by ring]
    exact not_le.mp hcase

/-- `roundHalfEvenInt` is the identity on integers. -/
theorem roundHalfEvenInt_intCast (n : ℤ) : roundHalfEvenInt (n : ℚ) = n := by
  unfold roundHalfEvenInt
  rw [Int.floor_intCast]
  norm_num

/-- `decimalDivide a b` is a multiple of `10 ^ (⌊log₁₀ |a/b|⌋ - 27)` (the last
place of a 28-significant-digit result) within half of that last place of the
exact quotient, and is exactly `a / b` whenever the exact quotient fits in 28
significant digits. -/
theorem decimalDivide_spec (a b : ℚ) (hq : a / b ≠ 0) :
    ∃ m : ℤ, decimalDivide a b = (m : ℚ) * (10:ℚ) ^ (floorLog10 |a / b| - 27) ∧
      |a / b - decimalDivide a b| ≤ (10:ℚ) ^ (floorLog10 |a / b| - 27) / 2 ∧
      (∀ k : ℤ, a / b = (k : ℚ) * (10:ℚ) ^ (floorLog10 |a / b| - 27) →
        decimalDivide a b = a / b) := by
  set e : ℤ := floorLog10 |a / b| - 27 with he
  have hpow : (0:ℚ) < (10:ℚ) ^ e := by positivity
  have hdef : decimalDivide a b
      = (roundHalfEvenInt (a / b / (10:ℚ) ^ e) : ℚ) * (10:ℚ) ^ e := by
    unfold decimalDivide
    simp only [ratAbs_eq_abs]
    rw [if_neg hq]
  refine ⟨roundHalfEvenInt (a / b / (10:ℚ) ^ e), hdef, ?_, ?_⟩
  · have h := (roundHalfEvenInt_spec (a / b / (10:ℚ) ^ e)).1
    rw [hdef]
    have h1 : a / b / (10:ℚ) ^ e * (10:ℚ) ^ e = a / b :=
      div_mul_cancel₀ _ hpow.ne'
    have key : a / b - (roundHalfEvenInt (a / b / (10:ℚ) ^ e) : ℚ) * (10:ℚ) ^ e
        = (a / b / (10:ℚ) ^ e - (roundHalfEvenInt (a / b / (10:ℚ) ^ e) : ℚ))
          * (10:ℚ) ^ e := by
      rw [sub_mul, h1]
    rw [key, abs_mul, abs_of_pos hpow]
    calc |a / b / (10:ℚ) ^ e - (roundHalfEvenInt (a / b / (10:ℚ) ^ e) : ℚ)|
          * (10:ℚ) ^ e
        ≤ (1/2) * (10:ℚ) ^ e := mul_le_mul_of_nonneg_right h hpow.le
      _ = (10:ℚ) ^ e / 2 := by ring
  · intro k hk
    rw [hdef, hk]
    rw [mul_div_cancel_right₀ _ hpow.ne', roundHalfEvenInt_intCast]

section StableSortLemmas

variable {α κ : Type} [LinearOrder κ] (key : α → κ)

lemma filter_orderedInsert_eqkey (k : κ) (a : α) (ha : key a = k)
    (l : List α) :
    (List.orderedInsert (keyLE key) a l).filter (fun x => decide (key x = k))
      = a :: l.filter (fun x => decide (key x = k)) := by
  induction l with
  | nil => simp [List.orderedInsert, ha]
  | cons b l ih =>
    simp only [List.orderedInsert]
    by_cases hab : keyLE key a b
    · rw [if_pos hab]
      simp [List.filter_cons, ha]
    · rw [if_neg hab]
      have hbk : ¬ key b = k := by
        unfold keyLE at hab
        exact ne_of_lt (ha ▸ not_le.mp hab)
      simp [List.filter_cons, hbk, ih]

lemma filter_orderedInsert_nekey (k : κ) (a : α) (ha : ¬ key a = k)
    (l : List α) :
    (List.orderedInsert (keyLE key) a l).filter (fun x => decide (key x = k))
      = l.filter (fun x => decide (key x = k)) := by
  induction l with
  | nil => simp [List.orderedInsert, ha]
  | cons b l ih =>
    simp only [List.orderedInsert]
    by_cases hab : keyLE key a b
    · rw [if_pos hab]
      simp [List.filter_cons, ha]
    · rw [if_neg hab]
      simp [List.filter_cons, ih]

/-- Stability: for every key value, the output lists the elements having that
key in the same order as the input. -/
lemma filter_pySort (l : List α) (k : κ) :
    (pySort key l).filter (fun x => decide (key x = k))
      = l.filter (fun x => decide (key x = k)) := by
  induction l with
  | nil => rfl
  | cons a l ih =>
    simp only [pySort, List.insertionSort] at *
    by_cases ha : key a = k
    · rw [filter_orderedInsert_eqkey key k a ha]
      simp [List.filter_cons, ha, ih]
    · rw [filter_orderedInsert_nekey key k a ha]
      simp [List.filter_cons, ha, ih]

lemma pySort_sorted (l : List α) : (pySort key l).Sorted (keyLE key) :=
  List.sorted_insertionSort _ l

lemma pySort_perm (l : List α) : List.Perm (pySort key l) l :=
  List.perm_insertionSort _ l

end StableSortLemmas

/-! ## Claims -/

/-- **C3.** For every numeric amount value parsed from a source record, `amt`
produces the value obtained by rendering the source value to its
decimal-accurate text form, parsing it as an exact decimal, and rounding to
2 decimal places using round-half-even, with no binary floating-point
artifacts.  Stated over the exact decimal value `v` of the source text: for
non-zero `v`, `amt` returns an amount that is a multiple of `1/100`, within
`1/200` of `v`, with ties resolved to the even scaled mantissa — i.e. the
round-half-even 2-place rounding of `v` — and the input `123.10` yields
exactly the fixed-point value `123.10`. -/
theorem amt_round_half_even_exact (v : ℚ) (hv : v ≠ 0) :
    (∃ m : ℤ, amt (some v) = some ⟨(m : ℚ) / 100, "USD"⟩ ∧
      |v - (m : ℚ) / 100| ≤ 1 / 200 ∧
      (|v - (m : ℚ) / 100| = 1 / 200 → Even m)) ∧
    amt (some (1231/10)) = some ⟨1231/10, "USD"⟩ := by
  constructor
  · obtain ⟨m, h1, h2, h3⟩ := round2_spec v
    refine ⟨m, ?_, h2, h3⟩
    simp only [amt, if_neg hv, h1]
  · decide

/-- Witness for **C3** at the spec's own example `v = 123.10`: the parsed
amount is exactly `123.10` (scaled mantissa `12310`), not `123.09…`. -/
theorem amt_round_half_even_exact_witness :
    (1231/10 : ℚ) ≠ 0 ∧
    ((∃ m : ℤ, amt (some ((1231:ℚ)/10)) = some ⟨(m : ℚ) / 100, "USD"⟩ ∧
      |(1231:ℚ)/10 - (m : ℚ) / 100| ≤ 1 / 200 ∧
      (|(1231:ℚ)/10 - (m : ℚ) / 100| = 1 / 200 → Even m)) ∧
      amt (some (1231/10)) = some ⟨1231/10, "USD"⟩) :=
  ⟨by decide, amt_round_half_even_exact (1231/10) (by decide)⟩

/-- **C2.** For every statement/snapshot entry (fifththird
`transaction_code "9999"`) whose posting date is `D`, every
`BalanceAssertion` emitted for it (both the liability/principal assertion
and the escrow assertion) has date exactly `D` plus one calendar day. -/
theorem fifththird_balance_assertion_date_shift (e : FifthThirdEntry) (d : ℕ)
    (hcode : e.transaction_code = some "9999")
    (hdate : e.posting_date = some d) :
    ∀ dir ∈ (fifththird_make_import_result e).entries,
      ∀ b : BalanceDir, dir = Directive.bal b → b.date = d + 1 := by
  intro dir hdir b hb
  subst hb
  unfold fifththird_make_import_result at hdir
  rw [if_pos hcode, hdate] at hdir
  simp only [Option.getD_some] at hdir
  rcases List.mem_append.mp hdir with h | h <;> split_ifs at h <;>
    simp_all

/-- Witness for **C2** at the sample statement entry (posting date
`737299`): both emitted balance assertions are dated `737300`. -/
theorem fifththird_balance_assertion_date_shift_witness :
    sampleStatementEntry.transaction_code = some "9999" ∧
    sampleStatementEntry.posting_date = some 737299 ∧
    (∀ dir ∈ (fifththird_make_import_result sampleStatementEntry).entries,
      ∀ b : BalanceDir, dir = Directive.bal b → b.date = 737300) :=
  ⟨rfl, rfl,
    fifththird_balance_assertion_date_shift sampleStatementEntry 737299 rfl rfl⟩

/-- **C8.** In posting synthesis, for every entry and every optional
component amount of its resolved shape (fifththird: principal, interest,
escrow, other), a posting for that component is produced if and only if the
component amount is truthy, i.e. present and non-zero; a zero-valued or
absent component amount never produces a posting.  (The entry's component
fields are the parsed `Amount`s, and a present amount may be zero: a raw
value like `0.001` rounds to the present amount `0.00`.  Beancount's
`Amount.__bool__` is `number != 0`, so such an amount is falsy and produces
no posting.) -/
theorem fifththird_component_postings (e : FifthThirdEntry)
    (h9 : e.transaction_code ≠ some "9999")
    (h5 : e.transaction_code ≠ some "5850") :
    (∃ t : Txn, (fifththird_make_import_result e).entries = [Directive.txn t] ∧
      (t.postings.filter
          (fun p => p.account == "Liabilities:Mortgage:FifthThird")
        = if truthyAmount e.principal_amount then
            [{ account := "Liabilities:Mortgage:FifthThird",
               units := e.principal_amount, cost := none, price := none }]
          else []) ∧
      (t.postings.filter
          (fun p => p.account == "Expenses:House:Mortgage:Interest")
        = if truthyAmount e.interest_amount then
            [{ account := "Expenses:House:Mortgage:Interest",
               units := e.interest_amount, cost := none, price := none }]
          else []) ∧
      (t.postings.filter (fun p => p.account == "Assets:FifthThird:Escrow")
        = if truthyAmount e.escrow_amount then
            [{ account := "Assets:FifthThird:Escrow",
               units := e.escrow_amount, cost := none, price := none }]
          else []) ∧
      (t.postings.filter (fun p => p.account == "Expenses:House:Mortgage:Other")
        = if truthyAmount e.other_amount then
            [{ account := "Expenses:House:Mortgage:Other",
               units := e.other_amount, cost := none, price := none }]
          else [])) ∧
    (∀ oa : Option Amount,
      truthyAmount oa = true ↔ ∃ x, oa = some x ∧ x.number ≠ 0) := by
  constructor
  · unfold fifththird_make_import_result
    rw [if_neg h9, if_neg h5]
    refine ⟨_, rfl, ?_, ?_, ?_, ?_⟩ <;>
      split_ifs <;>
        simp_all [List.filter_append, List.filter_cons]
  · intro oa
    cases oa with
    | none => simp [truthyAmount]
    | some a =>
      by_cases ha : a.number = 0 <;> simp [truthyAmount, ha]

/-- Witness for **C8** at the sample payment entry: principal `1000.00` and
escrow `499.99` are present and non-zero and produce exactly one posting
each; `interest` (raw `0`) is absent and `other` (raw `0.001`, parsed to the
present amount `0.00`) is zero-valued — neither produces a posting. -/
theorem fifththird_component_postings_witness :
    (samplePaymentEntry.transaction_code ≠ some "9999") ∧
    (samplePaymentEntry.transaction_code ≠ some "5850") ∧
    ((∃ t : Txn,
      (fifththird_make_import_result samplePaymentEntry).entries
        = [Directive.txn t] ∧
      (t.postings.filter
          (fun p => p.account == "Liabilities:Mortgage:FifthThird")
        = if truthyAmount samplePaymentEntry.principal_amount then
            [{ account := "Liabilities:Mortgage:FifthThird",
               units := samplePaymentEntry.principal_amount,
               cost := none, price := none }]
          else []) ∧
      (t.postings.filter
          (fun p => p.account == "Expenses:House:Mortgage:Interest")
        = if truthyAmount samplePaymentEntry.interest_amount then
            [{ account := "Expenses:House:Mortgage:Interest",
               units := samplePaymentEntry.interest_amount,
               cost := none, price := none }]
          else []) ∧
      (t.postings.filter (fun p => p.account == "Assets:FifthThird:Escrow")
        = if truthyAmount samplePaymentEntry.escrow_amount then
            [{ account := "Assets:FifthThird:Escrow",
               units := samplePaymentEntry.escrow_amount,
               cost := none, price := none }]
          else []) ∧
      (t.postings.filter (fun p => p.account == "Expenses:House:Mortgage:Other")
        = if truthyAmount samplePaymentEntry.other_amount then
            [{ account := "Expenses:House:Mortgage:Other",
               units := samplePaymentEntry.other_amount,
               cost := none, price := none }]
          else [])) ∧
    (∀ oa : Option Amount,
      truthyAmount oa = true ↔ ∃ x, oa = some x ∧ x.number ≠ 0)) ∧
    truthyAmount samplePaymentEntry.other_amount = false ∧
    samplePaymentEntry.other_amount = some ⟨0, "USD"⟩ ∧
    truthyAmount samplePaymentEntry.interest_amount = false ∧
    samplePaymentEntry.interest_amount = none :=
  ⟨by decide, by decide,
    fifththird_component_postings samplePaymentEntry (by decide) (by decide),
    by decide, by decide, by decide, by decide⟩

/-- A category-bucket account (`'Expenses:FIXME:%s' % cathash`) is never the
discrepancy account. -/
lemma bucketAccount_ne_groceries (k : String) :
    ("Expenses:FIXME:" ++ k) ≠ "Expenses:Food:Groceries" := by
  intro h
  have h2 := congrArg String.data h
  rw [String.data_append] at h2
  have h3 := congrArg (fun l => List.take 15 l) h2
  simp at h3

/-- **C6.** For every Wegmans order, a discrepancy posting is emitted if and
only if `charge_total` differs from the sum of the counted item sub-totals
plus `tax_total`, and when emitted its amount equals exactly `charge_total`
minus (item sub-total sum plus `tax_total`).  With `charge_total 100.00`,
item sub-totals summing to `92.00` and `tax_total 8.00` no discrepancy
posting is emitted; with `charge_total 101.00` and the same items/tax a
discrepancy posting of exactly `1.00` is emitted. -/
theorem wegmans_discrepancy_posting :
    (∀ o : WegmansOrder,
      (txnPostings (wegmans_make_import_result o)).filter
          (fun p => p.account == "Expenses:Food:Groceries")
        = if o.total ≠ wegmansItemTotal o.items + o.tax_total.getD 0 then
            [{ account := "Expenses:Food:Groceries",
               units := some ⟨o.total
                 - (wegmansItemTotal o.items + o.tax_total.getD 0), "USD"⟩,
               cost := none, price := none }]
          else []) ∧
    (txnPostings (wegmans_make_import_result sampleOrder100)).filter
        (fun p => p.account == "Expenses:Food:Groceries") = [] ∧
    (txnPostings (wegmans_make_import_result sampleOrder101)).filter
        (fun p => p.account == "Expenses:Food:Groceries")
      = [{ account := "Expenses:Food:Groceries",
           units := some ⟨1, "USD"⟩, cost := none, price := none }] := by
  refine ⟨?_, by decide, by decide⟩
  intro o
  unfold txnPostings wegmans_make_import_result
  simp only [List.foldr_cons, List.foldr_nil, List.append_nil]
  rw [List.filter_append, List.filter_append]
  have hbuckets :
      (((groupKeys (wegmansCountedItems o.items)).map (fun k =>
        ({ account := "Expenses:FIXME:" ++ k,
           units := some
             ⟨(((wegmansCountedItems o.items).filter
                 (fun d => cathash d == k)).map (fun d => d.sub_total)).sum,
               "USD"⟩,
           cost := none, price := none } : Posting))).filter
        (fun p => p.account == "Expenses:Food:Groceries")) = [] := by
    rw [List.filter_eq_nil_iff]
    intro p hp
    obtain ⟨k, _, rfl⟩ := List.mem_map.mp hp
    simpa using bucketAccount_ne_groceries k
  rw [hbuckets]
  split_ifs with h <;> simp [wegmansItemTotal]

/-- The `prepare` fold of `WegmansSource` ignores cancelled orders, from any
accumulator. -/
lemma wegmans_prepare_foldl_filter (existing : List String) :
    ∀ (entries : List WegmansOrder) (acc : List ImportResult),
      entries.foldl (fun acc e =>
          if e.status = some "cancelled" then acc
          else if existing.contains e.id then acc
          else acc ++ [wegmans_make_import_result e]) acc
        = (entries.filter (fun e => !(e.status == some "cancelled"))).foldl
            (fun acc e =>
              if e.status = some "cancelled" then acc
              else if existing.contains e.id then acc
              else acc ++ [wegmans_make_import_result e]) acc := by
  intro entries
  induction entries with
  | nil => intro _; rfl
  | cons e rest ih =>
    intro acc
    rw [List.foldl_cons, List.filter_cons]
    by_cases hc : e.status = some "cancelled"
    · have hb : (!(e.status == some "cancelled")) = false := by simp [hc]
      rw [hb, if_pos hc]
      simp only [Bool.false_eq_true, if_false]
      exact ih acc
    · have hb : (!(e.status == some "cancelled")) = true := by simp [hc]
      rw [hb]
      simp only [if_true]
      rw [List.foldl_cons]
      exact ih _

/-- **C9.** For every Wegmans order record whose top-level `status` field
equals `"cancelled"`, `prepare` produces no pending `ImportResult` for that
record (it is skipped before deduplication and synthesis), regardless of its
other fields: deleting the record from the input leaves the pending output
unchanged, and the whole run equals the run on the non-cancelled orders
alone. -/
theorem wegmans_prepare_skips_cancelled :
    (∀ (pre post : List WegmansOrder)
       (all_entries : List (JournalEntry String)) (e : WegmansOrder),
      e.status = some "cancelled" →
      wegmans_prepare (pre ++ e :: post) all_entries
        = wegmans_prepare (pre ++ post) all_entries) ∧
    (∀ (entries : List WegmansOrder)
       (all_entries : List (JournalEntry String)),
      wegmans_prepare entries all_entries
        = wegmans_prepare
            (entries.filter (fun e => !(e.status == some "cancelled")))
            all_entries) := by
  have h2 : ∀ (entries : List WegmansOrder)
      (all_entries : List (JournalEntry String)),
      wegmans_prepare entries all_entries
        = wegmans_prepare
            (entries.filter (fun e => !(e.status == some "cancelled")))
            all_entries := by
    intro entries all_entries
    unfold wegmans_prepare
    exact wegmans_prepare_foldl_filter _ entries []
  refine ⟨?_, h2⟩
  intro pre post all_entries e he
  rw [h2 (pre ++ e :: post), h2 (pre ++ post)]
  simp [List.filter_append, List.filter_cons, he]

/-- Witness for **C9**: dropping the concrete cancelled order (whose id is
in no dedup set) from a run leaves the pending output unchanged. -/
theorem wegmans_prepare_skips_cancelled_witness :
    cancelledOrder.status = some "cancelled" ∧
    wegmans_prepare ([sampleOrder100] ++ cancelledOrder :: []) []
      = wegmans_prepare ([sampleOrder100] ++ []) [] :=
  ⟨by decide,
    wegmans_prepare_skips_cancelled.1 [sampleOrder100] [] [] cancelledOrder
      (by decide)⟩

/-- **C10.** In Wegmans line-item aggregation, for every item whose `status`
equals `"removed"`: if the item has a non-null `child_order_item`, that
replacement item is used in its place for sub-total accumulation and bucket
assignment; otherwise the removed item contributes nothing to any category
bucket, to the item total, or to the discrepancy computation.  Stated as:
the whole synthesized import result is unchanged when a removed-with-child
item is replaced by its child as a plain item, and when a
removed-without-child item is deleted. -/
theorem wegmans_removed_item_handling :
    ∀ (o : WegmansOrder) (pre post : List WItem) (it : WItem),
      it.status = some "removed" →
      (it.child_order_item = none →
        o.items = pre ++ it :: post →
        wegmans_make_import_result o
          = wegmans_make_import_result { o with items := pre ++ post }) ∧
      (∀ c, it.child_order_item = some c →
        o.items = pre ++ it :: post →
        wegmans_make_import_result o
          = wegmans_make_import_result
              { o with items :=
                  pre ++ ({ status := none, child_order_item := none,
                            data := c } : WItem) :: post }) := by
  intro o pre post it hst
  constructor
  · intro hchild hitems
    obtain ⟨id, st, ts, tot, tax, items⟩ := o
    simp only at hitems
    subst hitems
    have hcount : wegmansCountedItems (pre ++ it :: post)
        = wegmansCountedItems (pre ++ post) := by
      simp [wegmansCountedItems, List.filterMap_append, List.filterMap_cons,
        resolveItem, hst, hchild]
    simp only [wegmans_make_import_result, wegmansItemTotal, hcount]
  · intro c hchild hitems
    obtain ⟨id, st, ts, tot, tax, items⟩ := o
    simp only at hitems
    subst hitems
    have hcount : wegmansCountedItems (pre ++ it :: post)
        = wegmansCountedItems
            (pre ++ ({ status := none, child_order_item := none,
                       data := c } : WItem) :: post) := by
      simp [wegmansCountedItems, List.filterMap_append, List.filterMap_cons,
        resolveItem, hst, hchild]
    simp only [wegmans_make_import_result, wegmansItemTotal, hcount]

/-- Witness for **C10** at the concrete order holding one
removed-with-replacement item and one removed-without-replacement item:
deleting the latter, and replacing the former by its child, both leave the
synthesized result unchanged. -/
theorem wegmans_removed_item_handling_witness :
    removedItemNoChild.status = some "removed" ∧
    removedItemNoChild.child_order_item = none ∧
    sampleOrderRemoved.items
      = [sampleItemA, removedItemWithChild] ++ removedItemNoChild
          :: [sampleItemB] ∧
    wegmans_make_import_result sampleOrderRemoved
      = wegmans_make_import_result
          { sampleOrderRemoved with
            items := [sampleItemA, removedItemWithChild] ++ [sampleItemB] } ∧
    removedItemWithChild.status = some "removed" ∧
    wegmans_make_import_result sampleOrderRemoved
      = wegmans_make_import_result
          { sampleOrderRemoved with
            items := [sampleItemA]
              ++ ({ status := none, child_order_item := none,
                    data := { name := "Whole Milk", categories := ["Dairy"],
                              sub_total := 450/100 } } : WItem)
              :: [removedItemNoChild, sampleItemB] } :=
  ⟨by decide, by decide, by decide,
    (wegmans_removed_item_handling sampleOrderRemoved
      [sampleItemA, removedItemWithChild] [sampleItemB] removedItemNoChild
      (by decide)).1 (by decide) (by decide),
    by decide,
    (wegmans_removed_item_handling sampleOrderRemoved
      [sampleItemA] [removedItemNoChild, sampleItemB] removedItemWithChild
      (by decide)).2
      { name := "Whole Milk", categories := ["Dairy"], sub_total := 450/100 }
      (by decide) (by decide)⟩

/-- **C4 (counterexample).** The claim also asserts that two records with
equal chronological keys keep their original file order in the returned
list.  False: `load_transactions` reverses the list *before* the stable
sort, so ties come out in reverse file order.  Concretely, for the distinct
records `A`, `B` with equal `posting_date`, file order `[A, B]` is returned
as `[B, A]`. -/
theorem fifththird_load_order_tie_counterexample :
    tieEntryA.posting_date = tieEntryB.posting_date ∧
    tieEntryA ≠ tieEntryB ∧
    fifththird_load_order [tieEntryA, tieEntryB] = [tieEntryB, tieEntryA] := by
  decide

/-- **C4 (amended).** For every input file, `load_transactions` returns the
decoded records reversed from file order and then stably re-sorted ascending
by the chronological key (fifththird: `posting_date`; vanguard:
`sequenceNumber`): the result is sorted by the key, is a permutation of the
records, and for any key value the records having it appear in the *reverse*
of their original relative order in the file (the stable sort preserves the
order of the reversed list, not of the file). -/
theorem load_order_stable_sort_amended :
    (∀ l : List FifthThirdEntry,
      (fifththird_load_order l).Sorted (keyLE fifththirdSortKey) ∧
      List.Perm (fifththird_load_order l) l ∧
      ∀ k : ℕ,
        (fifththird_load_order l).filter
            (fun e => decide (fifththirdSortKey e = k))
          = (l.filter (fun e => decide (fifththirdSortKey e = k))).reverse) ∧
    (∀ l : List VanguardEntry,
      (vanguard_load_order l).Sorted (keyLE vanguardSortKey) ∧
      List.Perm (vanguard_load_order l) l ∧
      ∀ k : ℚ,
        (vanguard_load_order l).filter
            (fun e => decide (vanguardSortKey e = k))
          = (l.filter (fun e => decide (vanguardSortKey e = k))).reverse) := by
  constructor
  · intro l
    refine ⟨pySort_sorted _ _, (pySort_perm _ _).trans l.reverse_perm, ?_⟩
    intro k
    unfold fifththird_load_order
    rw [filter_pySort, List.filter_reverse]
  · intro l
    refine ⟨pySort_sorted _ _, (pySort_perm _ _).trans l.reverse_perm, ?_⟩
    intro k
    unfold vanguard_load_order
    rw [filter_pySort, List.filter_reverse]

/-- `tcIn` is false when the transaction code equals none of the listed
codes. -/
lemma tcIn_eq_false (e : VanguardEntry) (codes : List String)
    (h : ∀ c ∈ codes, e.transactionCode ≠ some c) :
    tcIn e codes = false := by
  unfold tcIn
  cases htc : e.transactionCode with
  | none => rfl
  | some t =>
    by_contra hc
    rw [Bool.not_eq_false] at hc
    have hmem : t ∈ codes := by
      have := List.elem_iff.mp hc
      exact this
    exact h t hmem htc

set_option maxHeartbeats 4000000 in
/-- When the transaction code is outside the six cost/price-overriding
branches (`SCAP`, `LCAP`, `DIV`, `CNVO`, `CNVI`, `SELE`), the dispatch chain
leaves the initial cost basis in place. -/
lemma vanguard_legs_cost (e : VanguardEntry) (cash vang : String)
    (mappings : String → String)
    (hcode : ∀ c ∈ (["SCAP", "LCAP", "DIV", "CNVO", "CNVI", "SELE"]
      : List String), e.transactionCode ≠ some c) :
    (vanguard_legs e cash vang mappings).dst_cost
      = (vanguard_initial_legs e vang).dst_cost := by
  have hsub : ∀ codes : List String,
      (∀ c ∈ codes, c ∈ (["SCAP", "LCAP", "DIV", "CNVO", "CNVI", "SELE"]
        : List String)) → tcIn e codes = false := by
    intro codes hcodes
    exact tcIn_eq_false e codes (fun c hc => hcode c (hcodes c hc))
  have hne : ¬(false = true) := by decide
  have hSCAP : tcIn e ["SCAP", "LCAP"] = false := hsub _ (by decide)
  have hDIV : tcIn e ["DIV"] = false := hsub _ (by decide)
  have hCNV : tcIn e ["CNVO", "CNVI"] = false := hsub _ (by decide)
  have hSELE : tcIn e ["SELE"] = false := hsub _ (by decide)
  unfold vanguard_legs
  rw [hSCAP, hDIV, hCNV, hSELE, if_neg hne, if_neg hne, if_neg hne,
    if_neg hne]
  repeat (split <;> try rfl)

/-- **C5 (counterexample).** The claim asserts the ratio-derived cost basis
is `netAmount / quantity` *rounded to the 2-decimal fixed-point
representation*.  False: the source computes `D(netAmount)/D(quantity)`,
Python `decimal` division at the default 28-significant-digit context, and
never rounds it to 2 places.  For `netAmount = 10`, `quantity = 3` the
attached cost per unit is `3.333333333333333333333333333` (28 significant
digits), not `3.33`.  The claim also asserts that a *present* price is used
as the cost: a present price of `0` is falsy in Python, so the code
ratio-derives instead (`6 / 2 = 3`, not the stated `0`). -/
theorem vanguard_cost_basis_counterexample :
    ((vanguard_make_import_result sampleVanguardBuy sampleVanguardAccounts
        sampleVanguardMappings).map
      (fun r => (txnPostings r).map (fun p => p.cost)))
      = some [none,
          some ⟨3333333333333333333333333333 / 10 ^ 27, "USD", some 737500⟩] ∧
    (3333333333333333333333333333 / 10 ^ 27 : ℚ) ≠ round2 (10 / 3) ∧
    ((vanguard_make_import_result sampleVanguardZeroPrice
        sampleVanguardAccounts sampleVanguardMappings).map
      (fun r => (txnPostings r).map (fun p => p.cost)))
      = some [none, some ⟨3, "USD", some 737500⟩] ∧
    sampleVanguardZeroPrice.price = some 0 ∧ (3:ℚ) ≠ 0 := by
  decide

/-- **C5 (amended).** For every Vanguard entry synthesized into a
position-changing destination leg outside the six cost/price-overriding
branches: if the entry's `price` field is present *and non-zero* (Python
truthiness) the cost basis per-unit number equals that stated price;
otherwise, when `netAmount ≠ 0` and `quantity > 0`, it equals
`netAmount / quantity` computed by exact decimal division at the default
28-significant-digit context with `ROUND_HALF_EVEN` — a multiple of the
28-digit last place within half a last place of the exact quotient, exact
whenever the quotient fits in 28 significant digits — and *not* rounded to
the 2-decimal fixed point. -/
theorem vanguard_cost_basis_amended (e : VanguardEntry)
    (accounts : String → Option String) (mappings : String → String)
    (base : String) (hacct : e.accountId.bind accounts = some base)
    (hcode : ∀ c ∈ (["SCAP", "LCAP", "DIV", "CNVO", "CNVI", "SELE"]
      : List String), e.transactionCode ≠ some c)
    (na qty : ℚ) (hna : e.netAmount = some na)
    (hqty : e.quantity = some qty) :
    ∃ r : ImportResult,
      vanguard_make_import_result e accounts mappings = some r ∧
      ∃ src dst : Posting, txnPostings r = [src, dst] ∧
        dst.cost
          = (if truthyQ e.price then
              some ⟨e.price.getD 0, "USD", e.tradeDate⟩
            else if na ≠ 0 ∧ 0 < qty then
              some ⟨decimalDivide na qty, "USD", e.tradeDate⟩
            else none) ∧
        (truthyQ e.price = false → na ≠ 0 → 0 < qty →
          ∃ m : ℤ,
            decimalDivide na qty
              = (m : ℚ) * (10:ℚ) ^ (floorLog10 |na / qty| - 27) ∧
            |na / qty - decimalDivide na qty|
              ≤ (10:ℚ) ^ (floorLog10 |na / qty| - 27) / 2 ∧
            (∀ k : ℤ,
              na / qty = (k : ℚ) * (10:ℚ) ^ (floorLog10 |na / qty| - 27) →
              decimalDivide na qty = na / qty)) := by
  unfold vanguard_make_import_result
  rw [hacct]
  set cash := base ++ ":" ++ "Cash" with hcash
  set vang := base ++ ":" ++ pyFmt e.ticker with hvang
  set L := vanguard_legs e cash vang mappings with hL
  refine ⟨{ date := e.recordDate.getD 0,
            entries := [Directive.txn {
              date := e.recordDate.getD 0, payee := "Vanguard",
              narration := some L.narration,
              postings :=
                [⟨L.src_account, some L.src_units, none, none⟩,
                 ⟨L.dst_account, some L.dst_units, L.dst_cost,
                  L.dst_price⟩] }] },
    rfl,
    ⟨L.src_account, some L.src_units, none, none⟩,
    ⟨L.dst_account, some L.dst_units, L.dst_cost, L.dst_price⟩,
    by simp [txnPostings], ?_, ?_⟩
  · show L.dst_cost = _
    rw [hL, vanguard_legs_cost e cash vang mappings hcode]
    unfold vanguard_initial_legs
    simp [hna, hqty]
  · intro _ hna0 hq0
    exact decimalDivide_spec na qty (div_ne_zero hna0 (ne_of_gt hq0))

/-- Witness for **C5 (amended)** at the concrete ratio entry
(`netAmount = 10`, `quantity = 3`, no stated price). -/
theorem vanguard_cost_basis_amended_witness :
    sampleVanguardBuy.accountId.bind sampleVanguardAccounts
      = some "Assets:Vanguard:Brokerage" ∧
    (∃ r : ImportResult,
      vanguard_make_import_result sampleVanguardBuy sampleVanguardAccounts
          sampleVanguardMappings = some r ∧
      ∃ src dst : Posting, txnPostings r = [src, dst] ∧
        dst.cost
          = (if truthyQ sampleVanguardBuy.price then
              some ⟨sampleVanguardBuy.price.getD 0, "USD",
                    sampleVanguardBuy.tradeDate⟩
            else if (10:ℚ) ≠ 0 ∧ (0:ℚ) < 3 then
              some ⟨decimalDivide 10 3, "USD", sampleVanguardBuy.tradeDate⟩
            else none) ∧
        (truthyQ sampleVanguardBuy.price = false → (10:ℚ) ≠ 0 →
          (0:ℚ) < 3 →
          ∃ m : ℤ,
            decimalDivide 10 3
              = (m : ℚ) * (10:ℚ) ^ (floorLog10 |(10:ℚ) / 3| - 27) ∧
            |(10:ℚ) / 3 - decimalDivide 10 3|
              ≤ (10:ℚ) ^ (floorLog10 |(10:ℚ) / 3| - 27) / 2 ∧
            (∀ k : ℤ,
              (10:ℚ) / 3
                = (k : ℚ) * (10:ℚ) ^ (floorLog10 |(10:ℚ) / 3| - 27) →
              decimalDivide 10 3 = (10:ℚ) / 3))) :=
  ⟨by decide,
    vanguard_cost_basis_amended sampleVanguardBuy sampleVanguardAccounts
      sampleVanguardMappings "Assets:Vanguard:Brokerage" (by decide)
      (by decide) 10 3 (by decide) (by decide)⟩

/-- The `prepare` fold of `FifthThirdSource` stages exactly the entries that
survive the dedup filter, in order. -/
lemma fifththird_prepare_foldl_map (existing : List String) :
    ∀ (entries : List FifthThirdEntry) (acc : List ImportResult),
      entries.foldl (fun acc e =>
          if optIdInSet e.transaction_id existing then acc
          else acc ++ [fifththird_make_import_result e]) acc
        = acc ++ (entries.filter
            (fun e => !(optIdInSet e.transaction_id existing))).map
            fifththird_make_import_result := by
  intro entries
  induction entries with
  | nil => intro acc; simp
  | cons e rest ih =>
    intro acc
    rw [List.foldl_cons, List.filter_cons]
    by_cases hs : optIdInSet e.transaction_id existing = true
    · rw [if_pos hs, hs]
      simp only [Bool.not_true, Bool.false_eq_true, if_false]
      exact ih acc
    · rw [if_neg hs]
      rw [Bool.not_eq_true] at hs
      rw [hs]
      simp only [Bool.not_false, if_true, List.map_cons]
      rw [ih (acc ++ [fifththird_make_import_result e])]
      simp

/-- The `prepare` fold of `WegmansSource` stages exactly the non-cancelled
orders that survive the dedup filter, in order. -/
lemma wegmans_prepare_foldl_map (existing : List String) :
    ∀ (entries : List WegmansOrder) (acc : List ImportResult),
      entries.foldl (fun acc e =>
          if e.status = some "cancelled" then acc
          else if existing.contains e.id then acc
          else acc ++ [wegmans_make_import_result e]) acc
        = acc ++ (entries.filter (fun e =>
            !(e.status == some "cancelled")
              && !(existing.contains e.id))).map
            wegmans_make_import_result := by
  intro entries
  induction entries with
  | nil => intro acc; simp
  | cons e rest ih =>
    intro acc
    rw [List.foldl_cons, List.filter_cons]
    by_cases hc : e.status = some "cancelled"
    · rw [if_pos hc]
      have hb : (!(e.status == some "cancelled")
          && !(existing.contains e.id)) = false := by simp [hc]
      rw [hb]
      simp only [Bool.false_eq_true, if_false]
      exact ih acc
    · rw [if_neg hc]
      by_cases hid : existing.contains e.id = true
      · rw [if_pos hid]
        have hmem : e.id ∈ existing := List.elem_iff.mp hid
        have hb : (!(e.status == some "cancelled")
            && !(existing.contains e.id)) = false := by simp [hmem]
        rw [hb]
        simp only [Bool.false_eq_true, if_false]
        exact ih acc
      · rw [if_neg hid]
        rw [Bool.not_eq_true] at hid
        have hnotmem : e.id ∉ existing := by
          intro hmem
          have helem : existing.contains e.id = true := List.elem_iff.mpr hmem
          rw [helem] at hid
          exact Bool.noConfusion hid
        have hb : (!(e.status == some "cancelled")
            && !(existing.contains e.id)) = true := by simp [hc, hnotmem]
        rw [hb]
        simp only [if_true, List.map_cons]
        rw [ih (acc ++ [wegmans_make_import_result e])]
        simp

/-- The `prepare` loop of `VanguardSource` stages exactly the entries that
survive the dedup filter, in order, provided every entry's `accountId` is
mapped to a journal account (otherwise the loop would abort mid-way with a
`RuntimeError`). -/
lemma vanguard_prepare_loop_map (accounts : String → Option String)
    (mappings : String → String) (existing : List ℚ) :
    ∀ entries : List VanguardEntry,
      (∀ e ∈ entries, (e.accountId.bind accounts).isSome = true) →
      vanguard_prepare_loop accounts mappings existing entries
        = (entries.filter
            (fun e => !(optQInSet e.sequenceNumber existing))).filterMap
            (fun e => vanguard_make_import_result e accounts mappings) := by
  intro entries
  induction entries with
  | nil => intro _; rfl
  | cons e rest ih =>
    intro hmapped
    have hm : (e.accountId.bind accounts).isSome = true :=
      hmapped e (List.mem_cons_self e rest)
    have hrest := fun x hx => hmapped x (List.mem_cons_of_mem e hx)
    have hsome : ∃ r, vanguard_make_import_result e accounts mappings
        = some r := by
      obtain ⟨b, hb⟩ := Option.isSome_iff_exists.mp hm
      exact ⟨_, by unfold vanguard_make_import_result; rw [hb]⟩
    obtain ⟨r, hr⟩ := hsome
    unfold vanguard_prepare_loop
    rw [List.filter_cons]
    by_cases hs : optQInSet e.sequenceNumber existing = true
    · rw [if_pos hs, hs]
      simp only [Bool.not_true, Bool.false_eq_true, if_false]
      exact ih hrest
    · rw [if_neg hs]
      rw [Bool.not_eq_true] at hs
      rw [hs, hr]
      simp only [Bool.not_false, if_true, List.filterMap_cons, hr]
      rw [ih hrest]

/-- **C1 (counterexample).** The claim asserts that an entry whose external
key is absent from the set collected from the ledger is eligible for being
imported.  False for the Wegmans source: an order whose top-level `status`
is `"cancelled"` is skipped before the dedup check, so it yields no pending
result even though its id is in no ledger metadata. -/
theorem prepare_dedup_cancelled_counterexample :
    wegmans_get_existing_transaction_ids [] = [] ∧
    cancelledOrder.status = some "cancelled" ∧
    wegmans_prepare [cancelledOrder] [] = [] := by
  decide

/-- **C1 (amended).** For every loaded entry, the entry is excluded from the
pending import output entirely when its external key (fifththird:
`transaction_id`; vanguard: `sequenceNumber`; wegmans: `id`) is already
present in the set of keys collected from the existing ledger's transaction
and posting metadata, regardless of any other field of the entry; an entry
whose key is absent from that set is eligible for import — except Wegmans
orders whose `status` is `"cancelled"`, which are skipped before the dedup
check regardless of the key set.  (For the vanguard source the run is
additionally assumed not to abort: every entry's `accountId` is mapped to a
journal account.)  Each `prepare` stages exactly the entries surviving the
key filter (and, for Wegmans, the cancelled filter), in order. -/
theorem prepare_dedup_amended :
    (∀ (entries : List FifthThirdEntry)
       (all_entries : List (JournalEntry String)),
      fifththird_prepare entries all_entries
        = (entries.filter (fun e => !(optIdInSet e.transaction_id
            (fifththird_get_existing_transaction_ids all_entries)))).map
            fifththird_make_import_result) ∧
    (∀ (entries : List VanguardEntry)
       (all_entries : List (JournalEntry ℚ))
       (accounts : String → Option String) (mappings : String → String),
      (∀ e ∈ entries, (e.accountId.bind accounts).isSome = true) →
      vanguard_prepare entries all_entries accounts mappings
        = (entries.filter (fun e => !(optQInSet e.sequenceNumber
            (vanguard_get_existing_transaction_ids all_entries)))).filterMap
            (fun e => vanguard_make_import_result e accounts mappings)) ∧
    (∀ (entries : List WegmansOrder)
       (all_entries : List (JournalEntry String)),
      wegmans_prepare entries all_entries
        = (entries.filter (fun e =>
            !(e.status == some "cancelled")
              && !((wegmans_get_existing_transaction_ids
                      all_entries).contains e.id))).map
            wegmans_make_import_result) := by
  refine ⟨?_, ?_, ?_⟩
  · intro entries all_entries
    unfold fifththird_prepare
    rw [fifththird_prepare_foldl_map]
    simp
  · intro entries all_entries accounts mappings hmapped
    unfold vanguard_prepare
    exact vanguard_prepare_loop_map accounts mappings _ entries hmapped
  · intro entries all_entries
    unfold wegmans_prepare
    rw [wegmans_prepare_foldl_map]
    simp

/-- Witness for **C1 (amended)**: a concrete vanguard run with one mapped
entry and an empty journal stages exactly that entry. -/
theorem prepare_dedup_amended_witness :
    (∀ e ∈ [sampleVanguardBuy],
      (e.accountId.bind sampleVanguardAccounts).isSome = true) ∧
    vanguard_prepare [sampleVanguardBuy] [] sampleVanguardAccounts
        sampleVanguardMappings
      = ([sampleVanguardBuy].filter
          (fun e => !(optQInSet e.sequenceNumber
            (vanguard_get_existing_transaction_ids [])))).filterMap
          (fun e => vanguard_make_import_result e sampleVanguardAccounts
            sampleVanguardMappings) :=
  ⟨by decide,
    prepare_dedup_amended.2.1 [sampleVanguardBuy] []
      sampleVanguardAccounts sampleVanguardMappings (by decide)⟩

/-- **C7 (code bug).** The spec's data-model invariant says the dedup
identity is a stable combination of the entry's fields and never a
server-assigned transient identifier alone.  The fifththird module's own
docstring agrees (the API's `id` values "seem to be randomly generated each
session, so you can't use 'id' to de-dupe data" and recommends
`postDate+amount+transactionCode+description`), yet `prepare` dedups on
`entry.transaction_id` — the `id` field — alone.  Evaluated at the failing
input: the same posted event re-fetched in a new session (identical in
every field but the session-random id) is **not** deduplicated against the
ledger that already contains the first fetch. -/
theorem fifththird_dedup_transient_id_bug :
    ({ tieEntryA with transaction_id := tieEntryB.transaction_id }
      = tieEntryB) ∧
    fifththird_get_existing_transaction_ids
        [JournalEntry.txn [] [[("fifththird_transaction_id", "TIE-A")]]]
      = ["TIE-A"] ∧
    fifththird_prepare [tieEntryB]
        [JournalEntry.txn [] [[("fifththird_transaction_id", "TIE-A")]]]
      = [fifththird_make_import_result tieEntryB] := by
  decide

end BeancountImport
